import Mathlib

set_option linter.unusedVariables false

/-!
Shallow embedding of the RAG pipeline of the BaymaxAssistant repository
(`server/rag_build.py` and `server/app.py`), together with proofs about the
corpus normalizer (`flatten_kb`, `flatten_mb`), the index builder
(`build_index`), the retriever (`retrieve_context`), the prompt assembler
(`build_rag_prompt`) and the two chat endpoints.

Modelling conventions:
- Python/JSON values are modelled by the inductive type `PyVal` (JSON numbers
  are modelled as integers; no claim involves numeric payloads, and floating
  point is out of scope). Python dicts are association lists with
  first-occurrence lookup, which matches dicts produced by `json.load`
  (unique keys).
- A Python exception escaping a function is modelled by an `Option`/`Except`
  failure value; external collaborators (the Ollama embedding endpoint, the
  Chroma collection, the Groq completion client) are passed in as function
  parameters.
- Core `String` operations (`strip`, `split`, `join`, `sorted`) are modelled
  by structurally recursive functions over `String.data` so that concrete
  instances reduce inside the kernel. `pyStrip` covers the ASCII whitespace
  characters stripped by Python; `pyLe` is Python string comparison
  (lexicographic by code point).
-/

/-- Model of the Python/JSON values flowing through the pipeline. -/
inductive PyVal where
  | none
  | bool (b : Bool)
  | int (n : Int)
  | str (s : String)
  | list (xs : List PyVal)
  | dict (kvs : List (String × PyVal))

/-- Python dicts as association lists (`json.load` yields unique keys). -/
abbrev Dict := List (String × PyVal)

mutual

/-- Python `repr` of a value, as used by `str()` on containers. String
escaping inside `repr` is simplified to plain quoting; no claim inspects the
rendering of a string that itself contains a quote. -/
def pyRepr : PyVal → String
  | PyVal.none => "None"
  | PyVal.bool b => if b then "True" else "False"
  | PyVal.int n => toString n
  | PyVal.str s => "\x27" ++ s ++ "\x27"
  | PyVal.list xs => "[" ++ pyReprElems xs ++ "]"
  | PyVal.dict kvs => "\x7b" ++ pyReprEntries kvs ++ "\x7d"

/-- Comma-separated `repr` of list elements. -/
def pyReprElems : List PyVal → String
  | [] => ""
  | [x] => pyRepr x
  | x :: y :: rest => pyRepr x ++ ", " ++ pyReprElems (y :: rest)

/-- Comma-separated `repr` of dict entries. -/
def pyReprEntries : List (String × PyVal) → String
  | [] => ""
  | [(k, v)] => "\x27" ++ k ++ "\x27: " ++ pyRepr v
  | (k, v) :: e :: rest =>
    "\x27" ++ k ++ "\x27: " ++ pyRepr v ++ ", " ++ pyReprEntries (e :: rest)

end

/-- Python `str()`: identity on strings, `repr` otherwise. -/
def pyStr : PyVal → String
  | PyVal.str s => s
  | v => pyRepr v

/-- Python truthiness of a value. -/
def pyTruthy : PyVal → Bool
  | PyVal.none => false
  | PyVal.bool b => b
  | PyVal.int n => n != 0
  | PyVal.str s => s != ""
  | PyVal.list xs => !xs.isEmpty
  | PyVal.dict kvs => !kvs.isEmpty

/-- Whitespace stripped by Python `str.strip()` (ASCII range). -/
def isPySpace (c : Char) : Bool :=
  c = ' ' || c = '\t' || c = '\n' || c = '\r' || c = '\x0b' || c = '\x0c'

/-- Strip on the character list underlying a string. -/
def pyStripChars (cs : List Char) : List Char :=
  ((cs.dropWhile isPySpace).reverse.dropWhile isPySpace).reverse

/-- Python `str.strip()`. -/
def pyStrip (s : String) : String := String.mk (pyStripChars s.data)

/-- Split a character list on the comma character, Python `str.split(",")`. -/
def splitCommaChars : List Char → List (List Char)
  | [] => [[]]
  | c :: rest =>
    if c = ',' then [] :: splitCommaChars rest
    else match splitCommaChars rest with
      | [] => [[c]]
      | p :: ps => (c :: p) :: ps

/-- Python `s.split(",")`. -/
def splitComma (s : String) : List String := (splitCommaChars s.data).map String.mk

/-- Python `sep.join(xs)` over strings. -/
def joinSep (sep : String) : List String → String
  | [] => ""
  | [x] => x
  | x :: y :: rest => x ++ sep ++ joinSep sep (y :: rest)

/-- Python `dict.get(key)`: value at the first matching key. -/
def dictGet : Dict → String → Option PyVal
  | [], _ => Option.none
  | (k, v) :: rest, key => if k = key then some v else dictGet rest key

/-- Python `dict.get(key, default)`. -/
def dictGetD (m : Dict) (key : String) (dflt : PyVal) : PyVal :=
  (dictGet m key).getD dflt

/-- Python `dict[key] = v`: replace in place, or append a new entry. -/
def dictSet : Dict → String → PyVal → Dict
  | [], key, v => [(key, v)]
  | (k, w) :: rest, key, v =>
    if k = key then (k, v) :: rest else (k, w) :: dictSet rest key v

/-- All-or-nothing traversal: a `none` models a Python exception escaping the
loop body at that element. -/
def optMap (f : α → Option β) : List α → Option (List β)
  | [] => some []
  | a :: rest =>
    match f a, optMap f rest with
    | some b, some bs => some (b :: bs)
    | _, _ => Option.none

/-- Lexicographic comparison of character lists by code point, the order
Python uses to compare strings. -/
def charListLe : List Char → List Char → Bool
  | [], _ => true
  | _ :: _, [] => false
  | a :: as, b :: bs =>
    if a.toNat < b.toNat then true
    else if b.toNat < a.toNat then false
    else charListLe as bs

/-- Python `<=` on strings. -/
def strLe (a b : String) : Bool := charListLe a.data b.data

/-- Python string order as a proposition, for use with `insertionSort`. -/
def pyLe : String → String → Prop := fun a b => strLe a b = true

instance : DecidableRel pyLe := fun _ _ => inferInstanceAs (Decidable (_ = true))

/-- Python `sorted` on a list of strings. -/
def sortStrings (l : List String) : List String := l.insertionSort pyLe

/-- Python `sorted(set(l))`: sort the distinct elements. -/
def sortedSet (l : List String) : List String := sortStrings l.dedup

/-- A normalized passage: document text plus its metadata dict, the pairs
yielded by `flatten_kb` / `flatten_mb` in `rag_build.py`. -/
structure Passage where
  text : String
  meta : Dict

/-- Underlying string of a `PyVal`, when it is one. -/
def strOfPy : PyVal → Option String
  | PyVal.str s => some s
  | _ => Option.none

/-- Python `", ".join(xs)`: fails (TypeError) when an element is not a
string. -/
def joinCS (xs : List PyVal) : Option String :=
  (optMap strOfPy xs).map (joinSep ", ")

/-- Lines `rag_build.py:107-112`: coerce a topic's `sources` value to a
string (`sources_str`) for Chroma metadata: a list is comma+space-joined, a
string passes through, anything else goes through `str()`. -/
def kbSourcesStr : PyVal → Option String
  | PyVal.list xs => joinCS xs
  | PyVal.str s => some s
  | v => some (pyStr v)

/-- Body lines of a mapping payload, `rag_build.py:90-97`: a sequence value
emits one `"key: element"` line per element, any other value a single
`"key: value"` line. -/
def sectionPartsDict : List (String × PyVal) → List String
  | [] => []
  | (k, PyVal.list items) :: rest =>
    items.map (fun item => k ++ ": " ++ pyStr item) ++ sectionPartsDict rest
  | (k, v) :: rest => (k ++ ": " ++ pyStr v) :: sectionPartsDict rest

/-- Body lines (`text_parts`) of a section payload, `rag_build.py:89-102`. -/
def sectionParts : PyVal → List String
  | PyVal.dict kvs => sectionPartsDict kvs
  | PyVal.list items => items.map pyStr
  | v => [pyStr v]

/-- Passages of one topic of the structured knowledge base,
`rag_build.py:78-120`. A topic whose `data` is missing or not a dict
contributes nothing; each section yields one passage whose text is the
`"[<topic_name> / <section>]"` header followed by the body lines. -/
def flatten_kb_topic (topic : Dict) : Option (List Passage) :=
  let topic_id := dictGetD topic "topic_id" PyVal.none
  let topic_name := dictGetD topic "topic_name" PyVal.none
  let sources := dictGetD topic "sources" (PyVal.list [])
  match dictGetD topic "data" (PyVal.dict []) with
  | PyVal.dict sections =>
    optMap (fun kv =>
      (kbSourcesStr sources).map (fun sources_str =>
        { text := ("[" ++ pyStr topic_name ++ " / " ++ kv.1 ++ "]") ++ "\n" ++
            joinSep "\n" (sectionParts kv.2)
          meta := [("topic_id", topic_id), ("topic_name", topic_name),
                   ("section", PyVal.str kv.1),
                   ("sources", PyVal.str sources_str)] })) sections
  | _ => some []

/-- All passages of the structured knowledge base, `flatten_kb` in
`rag_build.py`. -/
def flatten_kb (topics : List Dict) : Option (List Passage) :=
  (optMap flatten_kb_topic topics).map List.flatten

/-- Lines `rag_build.py:153-158` read as a function on the `sources` value
of an mb chunk's metadata (`Option.none` argument = key absent): a truthy
list is comma+space-joined, a truthy non-list non-string goes through
`str()`, and everything else — a string, a falsy value, or an absent key —
is left unchanged. The outer `Option` models the `TypeError` that
`", ".join` raises on a list containing a non-string. -/
def mb_norm_sources : Option PyVal → Option (Option PyVal)
  | Option.none => some Option.none
  | some v =>
    if pyTruthy v then
      match v with
      | PyVal.list xs => (joinCS xs).map (fun s => some (PyVal.str s))
      | PyVal.str _ => some (some v)
      | _ => some (some (PyVal.str (pyStr v)))
    else some (some v)

/-- Metadata dict of an mb chunk after the sources normalization of
`rag_build.py:152-158` (literal translation: the dict is only written in
the two transforming branches). -/
def mb_norm_meta (meta : Dict) : Option Dict :=
  match dictGet meta "sources" with
  | Option.none => some meta
  | some sources =>
    if pyTruthy sources then
      match sources with
      | PyVal.list xs =>
        (joinCS xs).map (fun s => dictSet meta "sources" (PyVal.str s))
      | PyVal.str _ => some meta
      | v => some (dictSet meta "sources" (PyVal.str (pyStr v)))
    else some meta

/-- Passages contributed by one mb chunk, `rag_build.py:147-159`: a chunk
whose `chunk_text` is missing, empty or not a string is skipped silently;
otherwise the chunk text passes through verbatim with its normalized
metadata. A non-dict `metadata` value makes `meta.get` raise
(`Option.none`). -/
def flatten_mb_item (item : Dict) : Option (List Passage) :=
  match dictGet item "chunk_text" with
  | some (PyVal.str s) =>
    if s = "" then some []
    else match dictGetD item "metadata" (PyVal.dict []) with
      | PyVal.dict kvs =>
        (mb_norm_meta kvs).map (fun m => [{ text := s, meta := m }])
      | _ => Option.none
  | _ => some []

/-- All passages of the flat source, `flatten_mb` in `rag_build.py`. -/
def flatten_mb (chunks : List Dict) : Option (List Passage) :=
  (optMap flatten_mb_item chunks).map List.flatten

/-- State of the persisted `health_kb` Chroma collection, as the parallel
lists handed to `collection.add(documents=…, metadatas=…, ids=…,
embeddings=…)`. Embedding vectors are opaque (their floats never matter to
a claim), modelled as integer lists. -/
structure Collection where
  ids : List String
  docs : List String
  metas : List Dict
  embeddings : List (List Int)

/-- The empty collection. -/
def emptyCollection : Collection :=
  { ids := [], docs := [], metas := [], embeddings := [] }

/-- Embed every document in input order; the first failing request aborts
(`rag_build.py:193-206` raises `RuntimeError` on a non-200 response, and
documents are embedded one at a time in order). -/
def embedAll (embed : String → Option (List Int)) : List String → Option (List (List Int)) :=
  optMap embed

/-- The `build_index` routine of `rag_build.py:162-211`, as a function from
the prior persisted collection to the final persisted collection plus an
optional fatal error. The embedding collaborator is the `embed` parameter
(`Option.none` = request failure). Per the source's own documentation, the
initial `collection.delete(where=\x7b\x7d)` wipes the collection, so the
persisted state is empty from that point until the single bulk
`collection.add` at the end; the `prior` contents are discarded
unconditionally. An error in `flatten_kb`/`flatten_mb` (`TypeError` from a
non-string source entry) or in embedding leaves the cleared collection
behind. An empty document list returns early without error. -/
def build_index (embed : String → Option (List Int)) (topics : List Dict)
    (chunks : List Dict) (prior : Collection) : Collection × Option String :=
  match flatten_kb topics with
  | Option.none => (emptyCollection, some "TypeError")
  | some kbPassages =>
    match flatten_mb chunks with
    | Option.none => (emptyCollection, some "TypeError")
    | some mbPassages =>
      let passages := kbPassages ++ mbPassages
      let docs := passages.map Passage.text
      let metas := passages.map Passage.meta
      if docs.isEmpty then (emptyCollection, Option.none)
      else match embedAll embed docs with
        | Option.none => (emptyCollection, some "Error generating embeddings")
        | some embs =>
          ({ ids := (List.range docs.length).map (fun i => "doc-" ++ toString i)
             docs := docs, metas := metas, embeddings := embs }, Option.none)

/-- The fixed Baymax behavioral directive, `BAYMAX_SYSTEM_PROMPT` in
`app.py`. -/
def BAYMAX_SYSTEM_PROMPT : String :=
  "Anda adalah Baymax, asisten kesehatan pribadi yang tenang dan empatik. " ++
  "Anda tidak mendiagnosis penyakit, tidak meresepkan obat, dan tidak memberikan rekomendasi medis yang bersifat spesifik. " ++
  "Tugas Anda adalah memberikan informasi umum, tips gaya hidup, dan pertolongan awal yang aman berdasarkan pertanyaan pengguna atau konteks yang diberikan. " ++
  "Jika pertanyaan berkaitan dengan gejala berat, Anda harus menyarankan untuk berkonsultasi langsung dengan tenaga medis atau layanan darurat. " ++
  "Tulislah jawaban dalam Bahasa Indonesia dengan 2–4 kalimat, kemudian berikan 2–3 bullet point saran jika relevan. " ++
  "Akhiri jawaban dengan pertanyaan singkat atau harapan baik."

/-- The trailing `[PETUNJUK]` instruction block of the RAG prompt,
`app.py:236-238`. -/
def RAG_INSTRUCTIONS : String :=
  "Gunakan informasi dari [KONTEKS] untuk menjawab pertanyaan. Jika konteks tidak relevan, berikan jawaban umum sesuai kebijaksanaan Anda. " ++
  "Selalu cantumkan bagian \x27Sumber:\x27 di akhir jawaban yang berisi nama lembaga, dipisahkan oleh koma, dari sumber yang digunakan. " ++
  "Jika Anda tidak dapat menemukan jawaban yang relevan atau yakin, katakan bahwa Anda tidak tahu dan sarankan untuk berkonsultasi dengan tenaga medis."

/-- Source strings one retrieved metadata dict contributes to `source_set`,
`app.py:213-223`: an absent or falsy `sources` value contributes nothing; a
list contributes its elements as they are (the source would fail later at
`sorted` on non-string elements, modelled as failure here); a string is
split on commas and each part stripped; any other truthy value falls
through both `isinstance` branches and contributes nothing. -/
def meta_source_parts (meta : Dict) : Option (List String) :=
  match dictGet meta "sources" with
  | Option.none => some []
  | some v =>
    if pyTruthy v then
      match v with
      | PyVal.list xs => optMap strOfPy xs
      | PyVal.str s => some ((splitComma s).map pyStrip)
      | _ => some []
    else some []

/-- Strings added to `source_set` across all retrieved metadata, with
multiplicity, in the order of the `for meta in context_metas` loop. -/
def gather_sources : List Dict → Option (List String)
  | [] => some []
  | m :: rest =>
    match meta_source_parts m, gather_sources rest with
    | some p, some g => some (p ++ g)
    | _, _ => Option.none

/-- The `sorted_sources` value of `build_rag_prompt`: Python
`sorted(source_set)`, i.e. the distinct collected strings in code-point
order. -/
def sorted_sources (metas : List Dict) : Option (List String) :=
  (gather_sources metas).map sortedSet

/-- The `build_rag_prompt` helper of `app.py:197-240`: the assembled system
prompt together with the deduplicated, sorted source names. -/
def build_rag_prompt (user_question : String) (context_docs : List String)
    (context_metas : List Dict) : Option (String × List String) :=
  let context_section := joinSep "\n\n---\n" context_docs
  (sorted_sources context_metas).map (fun srcs =>
    (BAYMAX_SYSTEM_PROMPT ++ "\n\n" ++
     "[KONTEKS]\n" ++ context_section ++ "\n\n" ++
     "[PERTANYAAN PENGGUNA]\n" ++ user_question ++ "\n\n" ++
     "[PETUNJUK]\n" ++ RAG_INSTRUCTIONS, srcs))

/-- Outcome of the `requests.post` call to the Ollama embeddings endpoint:
either a response with a status code, body text and parsed embedding, or a
raised transport exception (gateway unreachable). -/
inductive EmbedResp where
  | response (status : Nat) (text : String) (embedding : List Int)
  | raised (msg : String)

/-- A request failure surfaced to the caller: an explicit
`HTTPException(status, detail)`, or an uncaught exception (which FastAPI
turns into a 500 response). -/
inductive ReqError where
  | httpException (status : Nat) (detail : String)
  | raised (msg : String)

/-- The `retrieve_context` helper of `app.py:168-194`. The embedding
gateway is the `embedder` parameter; `queryFn` is the persisted
`kb_collection.query` call together with the extraction of the first
documents/metadatas row (an empty collection yields empty lists). A raised
transport error propagates; a non-200 status raises
`HTTPException(500, "Error from Ollama: …")`. -/
def retrieve_context (embedder : String → EmbedResp)
    (queryFn : List Int → Nat → List String × List Dict)
    (query : String) (k : Nat) : Except ReqError (List String × List Dict) :=
  match embedder query with
  | EmbedResp.raised msg => Except.error (ReqError.raised msg)
  | EmbedResp.response status text embedding =>
    if status ≠ 200 then
      Except.error (ReqError.httpException 500 ("Error from Ollama: " ++ text))
    else
      Except.ok (queryFn embedding k)

/-- The `/api/chat` handler, `app.py:264-288`. `message` is `Option`-valued
to model the `(body.message or "")` guard; `genFn` is the Groq completion
call on (system prompt, user message). -/
def chat_endpoint (genFn : String → String → Except String String)
    (message : Option String) : Except ReqError String :=
  let question := pyStrip (message.getD "")
  if question = "" then
    Except.error (ReqError.httpException 400 "Message cannot be empty.")
  else
    match genFn BAYMAX_SYSTEM_PROMPT question with
    | Except.error ex =>
      Except.error (ReqError.httpException 500 ("Error from Groq: " ++ ex))
    | Except.ok answer => Except.ok answer

/-- The `/api/ask_rag` handler, `app.py:291-318`: validate the message,
retrieve context (failures propagate untouched), assemble the RAG prompt,
call the model on it, and return the answer with the sorted sources. -/
def rag_endpoint (embedder : String → EmbedResp)
    (queryFn : List Int → Nat → List String × List Dict)
    (genFn : String → Except String String)
    (message : Option String) : Except ReqError (String × List String) :=
  let question := pyStrip (message.getD "")
  if question = "" then
    Except.error (ReqError.httpException 400 "Message cannot be empty.")
  else
    match retrieve_context embedder queryFn question 4 with
    | Except.error e => Except.error e
    | Except.ok (docs, metas) =>
      match build_rag_prompt question docs metas with
      | Option.none => Except.error (ReqError.raised "TypeError")
      | some (prompt, sorted_srcs) =>
        match genFn prompt with
        | Except.error ex =>
          Except.error (ReqError.httpException 500 ("Error from Groq: " ++ ex))
        | Except.ok answer => Except.ok (answer, sorted_srcs)

/-- First line of a string: the characters before the first newline. -/
def firstLine (s : String) : String :=
  String.mk (s.data.takeWhile (fun c => c != '\n'))

/-- Lines of a character list, split on the newline character. -/
def splitNlChars : List Char → List (List Char)
  | [] => [[]]
  | c :: rest =>
    if c = '\n' then [] :: splitNlChars rest
    else match splitNlChars rest with
      | [] => [[c]]
      | p :: ps => (c :: p) :: ps

/-- Lines of a string (Python `s.split("\n")`). -/
def splitLines (s : String) : List String := (splitNlChars s.data).map String.mk

/-- A string containing no newline character. -/
def noNewline (s : String) : Prop := ∀ c ∈ s.data, c ≠ '\n'

instance (s : String) : Decidable (noNewline s) :=
  inferInstanceAs (Decidable (∀ c ∈ s.data, c ≠ '\n'))

/-- The three shapes the specification allows for a `sources` value:
absent, a single string, or a sequence of strings. -/
inductive SrcShape where
  | absent
  | single (s : String)
  | many (xs : List String)

/-- The `sources` value `flatten_kb` reads for a shape:
`topic.get("sources", [])` turns an absent key into the empty list. -/
def SrcShape.kbVal : SrcShape → PyVal
  | SrcShape.absent => PyVal.list []
  | SrcShape.single s => PyVal.str s
  | SrcShape.many xs => PyVal.list (xs.map PyVal.str)

/-- The `sources` value `flatten_mb` reads for a shape:
`meta.get("sources")` keeps an absent key absent (`None`). -/
def SrcShape.mbVal : SrcShape → Option PyVal
  | SrcShape.absent => Option.none
  | SrcShape.single s => some (PyVal.str s)
  | SrcShape.many xs => some (PyVal.list (xs.map PyVal.str))

/-- End-to-end scenario topic: `"Demam"` with one section `"gejala"` whose
payload maps `"tanda"` to a two-element list. -/
def demamTopic : Dict :=
  [("topic_name", PyVal.str "Demam"),
   ("data", PyVal.dict [("gejala", PyVal.dict [("tanda",
     PyVal.list [PyVal.str "suhu tinggi", PyVal.str "lemas"])])])]

/-- The passage `flatten_kb` produces for `demamTopic`. -/
def demamPassage : Passage :=
  { text := "[Demam / gejala]\ntanda: suhu tinggi\ntanda: lemas"
    meta := [("topic_id", PyVal.none), ("topic_name", PyVal.str "Demam"),
             ("section", PyVal.str "gejala"), ("sources", PyVal.str "")] }

/-- Flat-source record with an empty `chunk_text`. -/
def mbEmptyChunk : Dict :=
  [("chunk_text", PyVal.str ""), ("metadata", PyVal.dict [])]

/-- Flat-source record with verbatim text and list-valued sources. -/
def mbWaterChunk : Dict :=
  [("chunk_text", PyVal.str "Minum air putih cukup"),
   ("metadata", PyVal.dict [("sources",
     PyVal.list [PyVal.str "WHO", PyVal.str "Kemenkes"])])]

/-- The passage `flatten_mb` produces for `mbWaterChunk`. -/
def mbWaterPassage : Passage :=
  { text := "Minum air putih cukup"
    meta := [("sources", PyVal.str "WHO, Kemenkes")] }

/-- Flat-source record whose `sources` is the empty list. -/
def mbEmptyListChunk : Dict :=
  [("chunk_text", PyVal.str "x"), ("metadata", PyVal.dict [("sources", PyVal.list [])])]

/-- Attribution dict with sources string `"B, A"`. -/
def attrBA : Dict := [("sources", PyVal.str "B, A")]

/-- Attribution dict with sources string `"A"`. -/
def attrA : Dict := [("sources", PyVal.str "A")]

/-- Attribution dict with sources string `"Kemenkes"`. -/
def attrKemenkes : Dict := [("sources", PyVal.str "Kemenkes")]

/-- Attribution dict with sources string `"who, Kemenkes"`. -/
def attrWhoKemenkes : Dict := [("sources", PyVal.str "who, Kemenkes")]

/-- A nonempty persisted collection predating a rebuild. -/
def priorCollection : Collection :=
  { ids := ["doc-0"], docs := ["old document"],
    metas := [[("sources", PyVal.str "WHO")]], embeddings := [[7]] }

/-- Totality of the Python string order on character lists. -/
theorem charListLe_total : ∀ a b, charListLe a b = true ∨ charListLe b a = true := by
  intro a
  induction a with
  | nil => intro b; left; rfl
  | cons x xs ih =>
    intro b
    cases b with
    | nil => right; rfl
    | cons y ys =>
      simp only [charListLe]
      rcases Nat.lt_trichotomy x.toNat y.toNat with h | h | h
      · left; simp [h]
      · have h2 : ¬ x.toNat < y.toNat := by omega
        have h3 : ¬ y.toNat < x.toNat := by omega
        rcases ih ys with h4 | h4 <;> simp [h2, h3, h4]
      · right; simp [h, Nat.lt_asymm h]

/-- Transitivity of the Python string order on character lists. -/
theorem charListLe_trans : ∀ a b c, charListLe a b = true → charListLe b c = true →
    charListLe a c = true := by
  intro a
  induction a with
  | nil => intro b c _ _; rfl
  | cons x xs ih =>
    intro b c hab hbc
    cases b with
    | nil => simp [charListLe] at hab
    | cons y ys =>
      cases c with
      | nil => simp [charListLe] at hbc
      | cons z zs =>
        simp only [charListLe] at hab hbc ⊢
        rcases Nat.lt_trichotomy x.toNat y.toNat with h1 | h1 | h1 <;>
          rcases Nat.lt_trichotomy y.toNat z.toNat with h2 | h2 | h2
        · simp [show x.toNat < z.toNat by omega]
        · simp [show x.toNat < z.toNat by omega]
        · exfalso; simp [show ¬ y.toNat < z.toNat by omega, h2] at hbc
        · simp [show x.toNat < z.toNat by omega]
        · have hxz : ¬ x.toNat < z.toNat := by omega
          have hzx : ¬ z.toNat < x.toNat := by omega
          simp [show ¬ x.toNat < y.toNat by omega,
                show ¬ y.toNat < x.toNat by omega] at hab
          simp [show ¬ y.toNat < z.toNat by omega,
                show ¬ z.toNat < y.toNat by omega] at hbc
          simp [hxz, hzx]
          exact ih ys zs hab hbc
        · exfalso; simp [show ¬ y.toNat < z.toNat by omega, h2] at hbc
        · exfalso; simp [show ¬ x.toNat < y.toNat by omega, h1] at hab
        · exfalso; simp [show ¬ x.toNat < y.toNat by omega, h1] at hab
        · exfalso; simp [show ¬ x.toNat < y.toNat by omega, h1] at hab

/-- Antisymmetry of the Python string order on character lists. -/
theorem charListLe_antisymm : ∀ a b, charListLe a b = true → charListLe b a = true → a = b := by
  intro a
  induction a with
  | nil =>
    intro b _ hba
    cases b with
    | nil => rfl
    | cons y ys => simp [charListLe] at hba
  | cons x xs ih =>
    intro b hab hba
    cases b with
    | nil => simp [charListLe] at hab
    | cons y ys =>
      simp only [charListLe] at hab hba
      rcases Nat.lt_trichotomy x.toNat y.toNat with h1 | h1 | h1
      · exfalso; simp [show ¬ y.toNat < x.toNat by omega, h1] at hba
      · have hnxy : ¬ x.toNat < y.toNat := by omega
        have hnyx : ¬ y.toNat < x.toNat := by omega
        simp [hnxy, hnyx] at hab hba
        have hc : x = y := Char.ext (UInt32.toNat.inj h1)
        rw [hc, ih ys hab hba]
      · exfalso; simp [show ¬ x.toNat < y.toNat by omega, h1] at hab

instance : IsTotal String pyLe := ⟨fun a b => charListLe_total a.data b.data⟩

instance : IsTrans String pyLe := ⟨fun a b c => charListLe_trans a.data b.data c.data⟩

instance : IsAntisymm String pyLe := ⟨fun a b hab hba => by
  cases a with
  | mk da =>
    cases b with
    | mk db => exact congrArg String.mk (charListLe_antisymm da db hab hba)⟩

/-- Membership in `sortedSet` is membership in the underlying list. -/
theorem mem_sortedSet (l : List String) (s : String) : s ∈ sortedSet l ↔ s ∈ l := by
  unfold sortedSet sortStrings
  rw [(List.perm_insertionSort pyLe l.dedup).mem_iff, List.mem_dedup]

/-- Two string lists with the same members have the same `sortedSet`
(Python `sorted(set(…))` sees only the member set). -/
theorem sortedSet_ext (g1 g2 : List String) (h : ∀ s, s ∈ g1 ↔ s ∈ g2) :
    sortedSet g1 = sortedSet g2 := by
  have hp : List.Perm g1.dedup g2.dedup := by
    rw [List.perm_ext_iff_of_nodup (List.nodup_dedup g1) (List.nodup_dedup g2)]
    intro a
    simp only [List.mem_dedup]
    exact h a
  exact List.eq_of_perm_of_sorted
    ((List.perm_insertionSort pyLe g1.dedup).trans
      (hp.trans (List.perm_insertionSort pyLe g2.dedup).symm))
    (List.sorted_insertionSort pyLe g1.dedup) (List.sorted_insertionSort pyLe g2.dedup)

/-- A successful `optMap` maps every element somewhere in the output. -/
theorem optMap_mem {α β : Type} (f : α → Option β) :
    ∀ {l : List α} {ys : List β}, optMap f l = some ys →
      ∀ {a : α}, a ∈ l → ∃ b, f a = some b ∧ b ∈ ys := by
  intro l
  induction l with
  | nil => intro ys _ a ha; exact absurd ha (List.not_mem_nil a)
  | cons x rest ih =>
    intro ys hmap a ha
    cases hfx : f x with
    | none => simp [optMap, hfx] at hmap
    | some b =>
      cases hrest : optMap f rest with
      | none => simp [optMap, hfx, hrest] at hmap
      | some bs =>
        simp [optMap, hfx, hrest] at hmap
        subst hmap
        rcases List.mem_cons.mp ha with rfl | hmem
        · exact ⟨b, hfx, List.mem_cons_self b bs⟩
        · rcases ih hrest hmem with ⟨b2, hb2, hmemb⟩
          exact ⟨b2, hb2, List.mem_cons_of_mem b hmemb⟩

/-- Every element of a successful `optMap` output comes from an input
element. -/
theorem optMap_mem_rev {α β : Type} (f : α → Option β) :
    ∀ {l : List α} {ys : List β}, optMap f l = some ys →
      ∀ {b : β}, b ∈ ys → ∃ a, a ∈ l ∧ f a = some b := by
  intro l
  induction l with
  | nil =>
    intro ys hmap b hb
    simp [optMap] at hmap
    subst hmap
    exact absurd hb (List.not_mem_nil b)
  | cons x rest ih =>
    intro ys hmap b hb
    cases hfx : f x with
    | none => simp [optMap, hfx] at hmap
    | some b1 =>
      cases hrest : optMap f rest with
      | none => simp [optMap, hfx, hrest] at hmap
      | some bs =>
        simp [optMap, hfx, hrest] at hmap
        subst hmap
        rcases List.mem_cons.mp hb with rfl | hmem
        · exact ⟨x, List.mem_cons_self x rest, hfx⟩
        · rcases ih hrest hmem with ⟨a, hamem, hfa⟩
          exact ⟨a, List.mem_cons_of_mem x hamem, hfa⟩

/-- A failing element makes the whole `optMap` fail (the exception escapes
the loop). -/
theorem optMap_none_of_mem {α β : Type} (f : α → Option β) :
    ∀ {l : List α} {a : α}, a ∈ l → f a = Option.none → optMap f l = Option.none := by
  intro l
  induction l with
  | nil => intro a ha _; exact absurd ha (List.not_mem_nil a)
  | cons x rest ih =>
    intro a ha hfa
    rcases List.mem_cons.mp ha with rfl | hmem
    · simp [optMap, hfa]
    · cases hfx : f x with
      | none => simp [optMap, hfx]
      | some b => simp [optMap, hfx, ih hmem hfa]

/-- Joining a list of genuine strings always succeeds. -/
theorem optMap_strOfPy_map_str (xs : List String) :
    optMap strOfPy (xs.map PyVal.str) = some xs := by
  induction xs with
  | nil => rfl
  | cons x rest ih => simp [optMap, strOfPy, ih]

/-- Strings with no newline concatenate to a string with no newline. -/
theorem noNewline_append {a b : String} (ha : noNewline a) (hb : noNewline b) :
    noNewline (a ++ b) := by
  intro c hc
  rw [String.data_append] at hc
  rcases List.mem_append.mp hc with h | h
  · exact ha c h
  · exact hb c h

/-- Reading characters up to a newline recovers exactly the newline-free
part before it. -/
theorem takeWhile_append_nl (l2 : List Char) :
    ∀ l1 : List Char, (∀ c ∈ l1, c ≠ '\n') →
      (l1 ++ '\n' :: l2).takeWhile (fun c => c != '\n') = l1 := by
  intro l1
  induction l1 with
  | nil => intro _; simp [List.takeWhile]
  | cons c cs ih =>
    intro h
    have hc : (c != '\n') = true := by
      simp [h c (List.mem_cons_self c cs)]
    simp only [List.cons_append, List.takeWhile, hc]
    show c :: List.takeWhile (fun c => c != '\n') (cs ++ '\n' :: l2) = c :: cs
    rw [ih (fun d hd => h d (List.mem_cons_of_mem c hd))]

/-- The first line of `s ++ "\n" ++ t` is `s` when `s` has no newline. -/
theorem firstLine_append_nl (s t : String) (h : noNewline s) :
    firstLine (s ++ "\n" ++ t) = s := by
  have hd : (s ++ "\n" ++ t).data = s.data ++ '\n' :: t.data := by
    rw [String.data_append, String.data_append]
    simp
  rw [firstLine, hd, takeWhile_append_nl t.data s.data (fun c hc => h c hc)]

/-- A string starting with an opening bracket is nonempty. -/
theorem bracket_append_ne_empty (r : String) : "[" ++ r ≠ "" := by
  intro h
  have hdata := congrArg String.data h
  rw [String.data_append] at hdata
  simp at hdata

/-- A write to a dict is visible to a read of the same key. -/
theorem dictGet_dictSet (k : String) (v : PyVal) :
    ∀ m : Dict, dictGet (dictSet m k v) k = some v := by
  intro m
  induction m with
  | nil => simp [dictGet, dictSet]
  | cons e rest ih =>
    by_cases he : e.1 = k
    · simp [dictGet, dictSet, he]
    · simp [dictGet, dictSet, he, ih]

/-- The mb sources normalization leaves any string value unchanged (both
the truthy-string and the falsy branch of the source keep it as-is). -/
theorem mb_norm_sources_str (t : String) :
    mb_norm_sources (some (PyVal.str t)) = some (some (PyVal.str t)) := by
  by_cases ht : t = "" <;> simp [mb_norm_sources, pyTruthy, ht]

/-- Collected sources are invariant under permuting the retrieved metadata:
the `source_set` accumulation is order-insensitive. -/
theorem sorted_sources_perm : ∀ {m1 m2 : List Dict}, List.Perm m1 m2 →
    sorted_sources m1 = sorted_sources m2 := by
  intro m1 m2 h
  induction h with
  | nil => rfl
  | @cons x l1 l2 htail ih =>
    cases hx : meta_source_parts x with
    | none =>
      cases h1 : gather_sources l1 with
      | none =>
        cases h2 : gather_sources l2 with
        | none => simp [sorted_sources, gather_sources, hx, h1, h2]
        | some g2 => simp [sorted_sources, h1, h2] at ih
      | some g1 =>
        cases h2 : gather_sources l2 with
        | none => simp [sorted_sources, h1, h2] at ih
        | some g2 => simp [sorted_sources, gather_sources, hx, h1, h2]
    | some p =>
      cases h1 : gather_sources l1 with
      | none =>
        cases h2 : gather_sources l2 with
        | none => simp [sorted_sources, gather_sources, hx, h1, h2]
        | some g2 => simp [sorted_sources, h1, h2] at ih
      | some g1 =>
        cases h2 : gather_sources l2 with
        | none => simp [sorted_sources, h1, h2] at ih
        | some g2 =>
          simp only [sorted_sources, h1, h2, Option.map_some] at ih
          have hss : sortedSet g1 = sortedSet g2 := Option.some.inj ih
          have hmem : ∀ s, s ∈ g1 ↔ s ∈ g2 := by
            intro s
            rw [← mem_sortedSet g1 s, hss, mem_sortedSet g2 s]
          have hext : sortedSet (p ++ g1) = sortedSet (p ++ g2) :=
            sortedSet_ext _ _ (fun s => by
              simp only [List.mem_append]
              exact or_congr Iff.rfl (hmem s))
          simp [sorted_sources, gather_sources, hx, h1, h2, hext]
  | swap x y l =>
    cases hl : gather_sources l with
    | none =>
      cases hx : meta_source_parts x with
      | none =>
        cases hy : meta_source_parts y with
        | none => simp [sorted_sources, gather_sources, hx, hy, hl]
        | some q => simp [sorted_sources, gather_sources, hx, hy, hl]
      | some p =>
        cases hy : meta_source_parts y with
        | none => simp [sorted_sources, gather_sources, hx, hy, hl]
        | some q => simp [sorted_sources, gather_sources, hx, hy, hl]
    | some g =>
      cases hx : meta_source_parts x with
      | none =>
        cases hy : meta_source_parts y with
        | none => simp [sorted_sources, gather_sources, hx, hy, hl]
        | some q => simp [sorted_sources, gather_sources, hx, hy, hl]
      | some p =>
        cases hy : meta_source_parts y with
        | none => simp [sorted_sources, gather_sources, hx, hy, hl]
        | some q =>
          have hext : sortedSet (q ++ (p ++ g)) = sortedSet (p ++ (q ++ g)) :=
            sortedSet_ext _ _ (fun s => by
              simp only [List.mem_append]
              tauto)
          simp [sorted_sources, gather_sources, hx, hy, hl, hext]
  | trans h1 h2 ih1 ih2 => exact ih1.trans ih2

/-- Every element of a sequence-valued mapping entry produces its
`"key: element"` body line. -/
theorem mem_sectionPartsDict (k : String) (items : List PyVal) :
    ∀ pkvs : List (String × PyVal), (k, PyVal.list items) ∈ pkvs →
      ∀ item ∈ items, (k ++ ": " ++ pyStr item) ∈ sectionPartsDict pkvs := by
  intro pkvs
  induction pkvs with
  | nil => intro h; exact absurd h (List.not_mem_nil _)
  | cons e rest ih =>
    intro hmem item hitem
    rcases List.mem_cons.mp hmem with heq | htail
    · rw [← heq]
      show (k ++ ": " ++ pyStr item) ∈
        items.map (fun item => k ++ ": " ++ pyStr item) ++ sectionPartsDict rest
      exact List.mem_append_left _ (List.mem_map_of_mem _ hitem)
    · have hrec := ih htail item hitem
      rcases e with ⟨k2, v2⟩
      cases v2 <;> simp [sectionPartsDict] <;> tauto

/-- C4: sources normalization is idempotent for every input shape (sequence
of strings, single string, absent): re-normalizing the normalized value
yields the same value, both for the `flatten_kb` coercion (absent defaults
to the empty list) and for the `flatten_mb` in-place normalization. -/
theorem sources_normalization_idempotent (sh : SrcShape) :
    (kbSourcesStr sh.kbVal).bind (fun s => kbSourcesStr (PyVal.str s)) =
      kbSourcesStr sh.kbVal ∧
    (mb_norm_sources sh.mbVal).bind mb_norm_sources = mb_norm_sources sh.mbVal := by
  cases sh with
  | absent => exact ⟨rfl, rfl⟩
  | single s =>
    refine ⟨rfl, ?_⟩
    show (mb_norm_sources (some (PyVal.str s))).bind mb_norm_sources =
      mb_norm_sources (some (PyVal.str s))
    rw [mb_norm_sources_str]
    simp [mb_norm_sources_str]
  | many xs =>
    have hjoin : joinCS (xs.map PyVal.str) = some (joinSep ", " xs) := by
      simp [joinCS, optMap_strOfPy_map_str]
    constructor
    · show (kbSourcesStr (PyVal.list (xs.map PyVal.str))).bind
        (fun s => kbSourcesStr (PyVal.str s)) = kbSourcesStr (PyVal.list (xs.map PyVal.str))
      simp [kbSourcesStr, hjoin]
    · cases xs with
      | nil => rfl
      | cons y ys =>
        have hjoin2 : joinCS (PyVal.str y :: ys.map PyVal.str) =
            some (joinSep ", " (y :: ys)) := by
          simp [joinCS, optMap, strOfPy, optMap_strOfPy_map_str]
        have hlhs : mb_norm_sources (some (PyVal.list ((y :: ys).map PyVal.str))) =
            some (some (PyVal.str (joinSep ", " (y :: ys)))) := by
          simp [mb_norm_sources, pyTruthy, hjoin2]
        show (mb_norm_sources (some (PyVal.list ((y :: ys).map PyVal.str)))).bind
          mb_norm_sources = mb_norm_sources (some (PyVal.list ((y :: ys).map PyVal.str)))
        rw [hlhs]
        show mb_norm_sources (some (PyVal.str (joinSep ", " (y :: ys)))) =
          some (some (PyVal.str (joinSep ", " (y :: ys))))
        exact mb_norm_sources_str _

/-- C5 counterexample: the flat-source record with `sources == []` (an
empty list of strings) is emitted with its `sources` metadata still a raw
list, not a string: the falsy check in `flatten_mb` skips normalization. -/
theorem flatten_mb_raw_list_sources_cex :
    flatten_mb_item mbEmptyListChunk =
      some [{ text := "x", meta := [("sources", PyVal.list [])] }] ∧
    dictGet [("sources", PyVal.list [])] "sources" = some (PyVal.list []) ∧
    strOfPy (PyVal.list []) = Option.none :=
  ⟨rfl, rfl, rfl⟩

/-- C5 (amended): every record `flatten_kb` emits carries a string-valued
`sources` field; `flatten_mb` emits a string-valued `sources` whenever the
incoming sources value is truthy, and passes any falsy sources value —
including the empty list, which therefore stays a raw list — through
unchanged. -/
theorem normalizer_sources_scalar_string :
    (∀ (topic : Dict) (ps : List Passage) (p : Passage),
      flatten_kb_topic topic = some ps → p ∈ ps →
      ∃ s, dictGet p.meta "sources" = some (PyVal.str s)) ∧
    (∀ (meta : Dict) (v : PyVal) (m2 : Dict),
      dictGet meta "sources" = some v → pyTruthy v = true →
      mb_norm_meta meta = some m2 →
      ∃ s, dictGet m2 "sources" = some (PyVal.str s)) ∧
    (∀ (meta : Dict) (v : PyVal),
      dictGet meta "sources" = some v → pyTruthy v = false →
      mb_norm_meta meta = some meta) := by
  refine ⟨?_, ?_, ?_⟩
  · intro topic ps p hps hp
    cases hdata : dictGetD topic "data" (PyVal.dict []) with
    | dict sections =>
      simp only [flatten_kb_topic, hdata] at hps
      obtain ⟨a, hamem, hfa⟩ := optMap_mem_rev _ hps hp
      rcases Option.map_eq_some'.mp hfa with ⟨sstr, hksrc, hgp⟩
      refine ⟨sstr, ?_⟩
      rw [← hgp]
      rfl
    | none =>
      simp [flatten_kb_topic, hdata] at hps
      subst hps
      exact absurd hp (List.not_mem_nil p)
    | bool b =>
      simp [flatten_kb_topic, hdata] at hps
      subst hps
      exact absurd hp (List.not_mem_nil p)
    | int n =>
      simp [flatten_kb_topic, hdata] at hps
      subst hps
      exact absurd hp (List.not_mem_nil p)
    | str s =>
      simp [flatten_kb_topic, hdata] at hps
      subst hps
      exact absurd hp (List.not_mem_nil p)
    | list xs =>
      simp [flatten_kb_topic, hdata] at hps
      subst hps
      exact absurd hp (List.not_mem_nil p)
  · intro meta v m2 hv htruthy hnorm
    rw [mb_norm_meta, hv] at hnorm
    cases v with
    | none => simp [pyTruthy] at htruthy
    | bool b =>
      simp [htruthy] at hnorm
      rw [← hnorm]
      exact ⟨pyStr (PyVal.bool b), dictGet_dictSet _ _ meta⟩
    | int n =>
      simp [htruthy] at hnorm
      rw [← hnorm]
      exact ⟨pyStr (PyVal.int n), dictGet_dictSet _ _ meta⟩
    | str t =>
      simp [htruthy] at hnorm
      rw [← hnorm]
      exact ⟨t, hv⟩
    | list xs =>
      simp [htruthy] at hnorm
      rcases hnorm with ⟨j, hj, hm2⟩
      rw [← hm2]
      exact ⟨j, dictGet_dictSet _ _ meta⟩
    | dict kvs =>
      simp [htruthy] at hnorm
      rw [← hnorm]
      exact ⟨pyStr (PyVal.dict kvs), dictGet_dictSet _ _ meta⟩
  · intro meta v hv hfalsy
    simp [mb_norm_meta, hv, hfalsy]

/-- C5 witness: the Demam topic's passage and the WHO/Kemenkes chunk both
carry string sources, and the empty-string sources value is passed through
unchanged. -/
theorem normalizer_sources_scalar_string_witness :
    (∃ s, dictGet demamPassage.meta "sources" = some (PyVal.str s)) ∧
    (∃ s, dictGet [("sources", PyVal.str "WHO, Kemenkes")] "sources" =
      some (PyVal.str s)) ∧
    mb_norm_meta [("sources", PyVal.str "")] = some [("sources", PyVal.str "")] := by
  refine ⟨?_, ?_, ?_⟩
  · exact normalizer_sources_scalar_string.1 demamTopic [demamPassage] demamPassage
      rfl (List.mem_cons_self _ _)
  · exact normalizer_sources_scalar_string.2.1
      [("sources", PyVal.list [PyVal.str "WHO", PyVal.str "Kemenkes"])]
      (PyVal.list [PyVal.str "WHO", PyVal.str "Kemenkes"])
      [("sources", PyVal.str "WHO, Kemenkes")] rfl rfl rfl
  · exact normalizer_sources_scalar_string.2.2
      [("sources", PyVal.str "")] (PyVal.str "") rfl rfl

/-- C6: the flat-source traversal skips every record whose `chunk_text` is
missing, empty, or not a string (contributing zero passages, no error), and
passes a valid record's `chunk_text` through verbatim with its normalized
metadata; concretely, the empty-text record is dropped and the WHO/Kemenkes
record yields one passage whose sources are joined to `"WHO, Kemenkes"`. -/
theorem flatten_mb_skip_and_verbatim :
    (∀ item : Dict, dictGet item "chunk_text" = Option.none →
      flatten_mb_item item = some []) ∧
    (∀ item : Dict, dictGet item "chunk_text" = some (PyVal.str "") →
      flatten_mb_item item = some []) ∧
    (∀ (item : Dict) (v : PyVal), dictGet item "chunk_text" = some v →
      (∀ s, v ≠ PyVal.str s) → flatten_mb_item item = some []) ∧
    (∀ (item : Dict) (s : String) (kvs m2 : Dict),
      dictGet item "chunk_text" = some (PyVal.str s) → s ≠ "" →
      dictGetD item "metadata" (PyVal.dict []) = PyVal.dict kvs →
      mb_norm_meta kvs = some m2 →
      flatten_mb_item item = some [{ text := s, meta := m2 }]) ∧
    flatten_mb [mbEmptyChunk, mbWaterChunk] = some [mbWaterPassage] := by
  refine ⟨?_, ?_, ?_, ?_, rfl⟩
  · intro item h
    simp [flatten_mb_item, h]
  · intro item h
    simp [flatten_mb_item, h]
  · intro item v hv hne
    cases v with
    | str s => exact absurd rfl (hne s)
    | none => simp [flatten_mb_item, hv]
    | bool b => simp [flatten_mb_item, hv]
    | int n => simp [flatten_mb_item, hv]
    | list xs => simp [flatten_mb_item, hv]
    | dict kvs => simp [flatten_mb_item, hv]
  · intro item s kvs m2 hct hne hmeta hnorm
    simp [flatten_mb_item, hct, hne, hmeta, hnorm]

/-- C6 witness: the skip and verbatim clauses at the two scenario records. -/
theorem flatten_mb_skip_and_verbatim_witness :
    flatten_mb_item mbEmptyChunk = some [] ∧
    flatten_mb_item mbWaterChunk = some [mbWaterPassage] := by
  constructor
  · exact flatten_mb_skip_and_verbatim.2.1 mbEmptyChunk rfl
  · exact flatten_mb_skip_and_verbatim.2.2.2.1 mbWaterChunk "Minum air putih cukup"
      [("sources", PyVal.list [PyVal.str "WHO", PyVal.str "Kemenkes"])]
      [("sources", PyVal.str "WHO, Kemenkes")] rfl (by decide) rfl rfl

/-- C3: every topic section of the structured source yields a passage whose
text is nonempty, starts with the `"[<topic_name> / <section>]"` header
line (for names without embedded newlines), and contains one
`"key: element"` body line per element of each sequence-valued mapping
entry; concretely, the Demam/gejala topic yields exactly one passage with
header `"[Demam / gejala]"` and body lines `"tanda: suhu tinggi"` and
`"tanda: lemas"`. -/
theorem flatten_kb_header_and_body :
    (∀ (topic : Dict) (sections : List (String × PyVal)) (sect : String)
       (payload : PyVal) (ps : List Passage),
      dictGetD topic "data" (PyVal.dict []) = PyVal.dict sections →
      (sect, payload) ∈ sections →
      flatten_kb_topic topic = some ps →
      ∃ p ∈ ps,
        p.text = ("[" ++ pyStr (dictGetD topic "topic_name" PyVal.none) ++ " / " ++
          sect ++ "]") ++ "\n" ++ joinSep "\n" (sectionParts payload) ∧
        p.text ≠ "" ∧
        (noNewline (pyStr (dictGetD topic "topic_name" PyVal.none)) → noNewline sect →
          firstLine p.text =
            "[" ++ pyStr (dictGetD topic "topic_name" PyVal.none) ++ " / " ++
              sect ++ "]") ∧
        (∀ (pkvs : List (String × PyVal)) (k : String) (items : List PyVal),
          payload = PyVal.dict pkvs → (k, PyVal.list items) ∈ pkvs →
          ∀ item ∈ items, (k ++ ": " ++ pyStr item) ∈ sectionParts payload)) ∧
    flatten_kb [demamTopic] = some [demamPassage] ∧
    splitLines demamPassage.text =
      ["[Demam / gejala]", "tanda: suhu tinggi", "tanda: lemas"] := by
  refine ⟨?_, rfl, rfl⟩
  intro topic sections sect payload ps hdata hmem hps
  simp only [flatten_kb_topic, hdata] at hps
  obtain ⟨b, hfb, hbmem⟩ := optMap_mem _ hps hmem
  rcases Option.map_eq_some'.mp hfb with ⟨sstr, hksrc, hgb⟩
  refine ⟨b, hbmem, ?_, ?_, ?_, ?_⟩
  · rw [← hgb]
  · rw [← hgb]
    show (("[" ++ pyStr (dictGetD topic "topic_name" PyVal.none) ++ " / " ++
      sect ++ "]") ++ "\n" ++ joinSep "\n" (sectionParts payload)) ≠ ""
    rw [String.append_assoc]
    exact bracket_append_ne_empty _
  · intro hnm hsect
    rw [← hgb]
    have hh : noNewline ("[" ++ pyStr (dictGetD topic "topic_name" PyVal.none) ++
        " / " ++ sect ++ "]") :=
      noNewline_append (noNewline_append (noNewline_append
        (noNewline_append (by decide) hnm) (by decide)) hsect) (by decide)
    exact firstLine_append_nl
      ("[" ++ pyStr (dictGetD topic "topic_name" PyVal.none) ++ " / " ++ sect ++ "]")
      (joinSep "\n" (sectionParts payload)) hh
  · intro pkvs k items hpay hkmem item hitem
    rw [hpay]
    show (k ++ ": " ++ pyStr item) ∈ sectionPartsDict pkvs
    exact mem_sectionPartsDict k items pkvs hkmem item hitem

/-- C3 witness: the general clause instantiated at the Demam topic. -/
theorem flatten_kb_header_and_body_witness :
    ∃ p ∈ [demamPassage],
      p.text = ("[" ++ pyStr (dictGetD demamTopic "topic_name" PyVal.none) ++ " / " ++
        "gejala" ++ "]") ++ "\n" ++ joinSep "\n" (sectionParts (PyVal.dict [("tanda",
          PyVal.list [PyVal.str "suhu tinggi", PyVal.str "lemas"])])) ∧
      p.text ≠ "" ∧
      (noNewline (pyStr (dictGetD demamTopic "topic_name" PyVal.none)) →
        noNewline "gejala" →
        firstLine p.text =
          "[" ++ pyStr (dictGetD demamTopic "topic_name" PyVal.none) ++ " / " ++
            "gejala" ++ "]") ∧
      (∀ (pkvs : List (String × PyVal)) (k : String) (items : List PyVal),
        PyVal.dict [("tanda", PyVal.list [PyVal.str "suhu tinggi", PyVal.str "lemas"])] =
          PyVal.dict pkvs → (k, PyVal.list items) ∈ pkvs →
        ∀ item ∈ items, (k ++ ": " ++ pyStr item) ∈ sectionParts (PyVal.dict [("tanda",
          PyVal.list [PyVal.str "suhu tinggi", PyVal.str "lemas"])])) :=
  flatten_kb_header_and_body.1 demamTopic
    [("gejala", PyVal.dict [("tanda", PyVal.list [PyVal.str "suhu tinggi",
      PyVal.str "lemas"])])]
    "gejala"
    (PyVal.dict [("tanda", PyVal.list [PyVal.str "suhu tinggi", PyVal.str "lemas"])])
    [demamPassage] rfl (List.mem_cons_self _ _) rfl

/-- C1 counterexample: with a nonempty prior collection and an embedding
gateway that fails, `build_index` aborts with an error, but the persisted
`health_kb` contents are not the same as before the build: the collection
was cleared up front, so the prior document is gone. -/
theorem build_index_wipes_prior_state_cex :
    build_index (fun _ => Option.none) [demamTopic] [] priorCollection =
      (emptyCollection, some "Error generating embeddings") ∧
    priorCollection.docs = ["old document"] ∧
    emptyCollection.docs ≠ priorCollection.docs :=
  ⟨rfl, rfl, by decide⟩

/-- C1 (amended): if any embedding request fails during `build_index`, the
whole build aborts with an error and no embedded documents are persisted;
however, the collection has already been cleared when the build starts, so
the persisted state after the failed build is the empty collection rather
than the pre-build contents. -/
theorem build_index_embed_failure_aborts
    (embed : String → Option (List Int)) (topics chunks : List Dict)
    (prior : Collection) (kbP mbP : List Passage)
    (hkb : flatten_kb topics = some kbP) (hmb : flatten_mb chunks = some mbP)
    (d : String) (hd : d ∈ (kbP ++ mbP).map Passage.text)
    (hfail : embed d = Option.none) :
    (build_index embed topics chunks prior).2 = some "Error generating embeddings" ∧
    (build_index embed topics chunks prior).1 = emptyCollection := by
  have hisempty : ((kbP ++ mbP).map Passage.text).isEmpty = false := by
    cases hl : (kbP ++ mbP).map Passage.text with
    | nil => rw [hl] at hd; exact absurd hd (List.not_mem_nil d)
    | cons a as => rfl
  have hembed : embedAll embed ((kbP ++ mbP).map Passage.text) = Option.none :=
    optMap_none_of_mem _ hd hfail
  have hred : build_index embed topics chunks prior =
      (emptyCollection, some "Error generating embeddings") := by
    simp only [build_index, hkb, hmb]
    rw [hisempty, if_neg (by simp), hembed]
  rw [hred]
  exact ⟨rfl, rfl⟩

/-- C1 witness: the amended abort clause at a concrete failing build. -/
theorem build_index_embed_failure_aborts_witness :
    (build_index (fun _ => Option.none) [demamTopic] [] priorCollection).2 =
      some "Error generating embeddings" ∧
    (build_index (fun _ => Option.none) [demamTopic] [] priorCollection).1 =
      emptyCollection :=
  build_index_embed_failure_aborts (fun _ => Option.none) [demamTopic] []
    priorCollection [demamPassage] [] rfl rfl demamPassage.text
    (List.mem_cons_self _ _) rfl

/-- C9: rebuilding from unchanged sources is idempotent in content: two
successful builds (under possibly different embedding responses) persist
the same document texts and the same attributions, and the identifiers are
the deterministic sequential `"doc-<i>"` assigned by input position. -/
theorem build_index_rebuild_deterministic (topics chunks : List Dict)
    (e1 e2 : String → Option (List Int)) (p1 p2 : Collection)
    (h1 : (build_index e1 topics chunks p1).2 = Option.none)
    (h2 : (build_index e2 topics chunks p2).2 = Option.none) :
    (build_index e1 topics chunks p1).1.docs = (build_index e2 topics chunks p2).1.docs ∧
    (build_index e1 topics chunks p1).1.metas =
      (build_index e2 topics chunks p2).1.metas ∧
    (build_index e1 topics chunks p1).1.ids = (build_index e2 topics chunks p2).1.ids ∧
    (build_index e1 topics chunks p1).1.ids =
      (List.range (build_index e1 topics chunks p1).1.docs.length).map
        (fun i => "doc-" ++ toString i) := by
  cases hkb : flatten_kb topics with
  | none => simp [build_index, hkb] at h1
  | some kbP =>
    cases hmb : flatten_mb chunks with
    | none => simp [build_index, hkb, hmb] at h1
    | some mbP =>
      cases hde : ((kbP ++ mbP).map Passage.text).isEmpty with
      | true =>
        have hred1 : build_index e1 topics chunks p1 = (emptyCollection, Option.none) := by
          simp only [build_index, hkb, hmb]
          rw [hde, if_pos rfl]
        have hred2 : build_index e2 topics chunks p2 = (emptyCollection, Option.none) := by
          simp only [build_index, hkb, hmb]
          rw [hde, if_pos rfl]
        rw [hred1, hred2]
        exact ⟨rfl, rfl, rfl, rfl⟩
      | false =>
        cases he1 : embedAll e1 ((kbP ++ mbP).map Passage.text) with
        | none =>
          have hred1 : build_index e1 topics chunks p1 =
              (emptyCollection, some "Error generating embeddings") := by
            simp only [build_index, hkb, hmb]
            rw [hde, if_neg (by simp), he1]
          rw [hred1] at h1
          simp at h1
        | some embs1 =>
          cases he2 : embedAll e2 ((kbP ++ mbP).map Passage.text) with
          | none =>
            have hred2 : build_index e2 topics chunks p2 =
                (emptyCollection, some "Error generating embeddings") := by
              simp only [build_index, hkb, hmb]
              rw [hde, if_neg (by simp), he2]
            rw [hred2] at h2
            simp at h2
          | some embs2 =>
            have hred1 : build_index e1 topics chunks p1 =
                ({ ids := (List.range ((kbP ++ mbP).map Passage.text).length).map
                     (fun i => "doc-" ++ toString i)
                   docs := (kbP ++ mbP).map Passage.text
                   metas := (kbP ++ mbP).map Passage.meta
                   embeddings := embs1 }, Option.none) := by
              simp only [build_index, hkb, hmb]
              rw [hde, if_neg (by simp), he1]
            have hred2 : build_index e2 topics chunks p2 =
                ({ ids := (List.range ((kbP ++ mbP).map Passage.text).length).map
                     (fun i => "doc-" ++ toString i)
                   docs := (kbP ++ mbP).map Passage.text
                   metas := (kbP ++ mbP).map Passage.meta
                   embeddings := embs2 }, Option.none) := by
              simp only [build_index, hkb, hmb]
              rw [hde, if_neg (by simp), he2]
            rw [hred1, hred2]
            exact ⟨rfl, rfl, rfl, rfl⟩

/-- C9 witness: two concrete successful builds from the same sources. -/
theorem build_index_rebuild_deterministic_witness :
    (build_index (fun _ => some [1]) [demamTopic] [mbWaterChunk]
      priorCollection).1.docs =
      (build_index (fun _ => some [2]) [demamTopic] [mbWaterChunk]
        emptyCollection).1.docs ∧
    (build_index (fun _ => some [1]) [demamTopic] [mbWaterChunk]
      priorCollection).1.metas =
      (build_index (fun _ => some [2]) [demamTopic] [mbWaterChunk]
        emptyCollection).1.metas ∧
    (build_index (fun _ => some [1]) [demamTopic] [mbWaterChunk]
      priorCollection).1.ids =
      (build_index (fun _ => some [2]) [demamTopic] [mbWaterChunk]
        emptyCollection).1.ids ∧
    (build_index (fun _ => some [1]) [demamTopic] [mbWaterChunk]
      priorCollection).1.ids =
      (List.range (build_index (fun _ => some [1]) [demamTopic] [mbWaterChunk]
        priorCollection).1.docs.length).map (fun i => "doc-" ++ toString i) :=
  build_index_rebuild_deterministic [demamTopic] [mbWaterChunk]
    (fun _ => some [1]) (fun _ => some [2]) priorCollection emptyCollection rfl rfl

/-- C2: the sources returned by `build_rag_prompt` are the union of the
attributions' sources strings split on commas and trimmed, deduplicated by
exact post-trim equality and sorted in code-point order; the result is
invariant to attribution order and to duplicate entries, and on the two
scenario inputs equals `["A", "B"]` and `["Kemenkes", "who"]` (no case
folding). -/
theorem build_rag_prompt_sources_dedup_sorted :
    (∀ m1 m2 : List Dict, List.Perm m1 m2 → sorted_sources m1 = sorted_sources m2) ∧
    (∀ (m1 m2 : List Dict) (g1 g2 : List String),
      gather_sources m1 = some g1 → gather_sources m2 = some g2 →
      (∀ s, s ∈ g1 ↔ s ∈ g2) → sorted_sources m1 = sorted_sources m2) ∧
    (build_rag_prompt "q" [] [attrBA, attrA]).map Prod.snd = some ["A", "B"] ∧
    (build_rag_prompt "q" [] [attrKemenkes, attrWhoKemenkes]).map Prod.snd =
      some ["Kemenkes", "who"] := by
  refine ⟨fun m1 m2 h => sorted_sources_perm h, ?_, rfl, rfl⟩
  intro m1 m2 g1 g2 h1 h2 hmem
  simp only [sorted_sources, h1, h2]
  show some (sortedSet g1) = some (sortedSet g2)
  rw [sortedSet_ext g1 g2 hmem]

/-- C2 witness: order invariance instantiated at the two scenario
attributions. -/
theorem build_rag_prompt_sources_dedup_sorted_witness :
    sorted_sources [attrA, attrBA] = sorted_sources [attrBA, attrA] :=
  build_rag_prompt_sources_dedup_sorted.1 [attrA, attrBA] [attrBA, attrA]
    (List.Perm.swap attrBA attrA [])

/-- C7: a raised transport error or a non-200 status from the embedding
gateway makes `retrieve_context` fail, and the failure propagates through
`rag_endpoint` to the caller unchanged — it is never swallowed and no
answer is produced on the RAG path. -/
theorem retrieve_context_failure_propagates :
    (∀ (embedder : String → EmbedResp)
       (queryFn : List Int → Nat → List String × List Dict)
       (q : String) (k : Nat) (msg : String),
      embedder q = EmbedResp.raised msg →
      retrieve_context embedder queryFn q k = Except.error (ReqError.raised msg)) ∧
    (∀ (embedder : String → EmbedResp)
       (queryFn : List Int → Nat → List String × List Dict)
       (q : String) (k : Nat) (status : Nat) (text : String) (emb : List Int),
      embedder q = EmbedResp.response status text emb → status ≠ 200 →
      retrieve_context embedder queryFn q k =
        Except.error (ReqError.httpException 500 ("Error from Ollama: " ++ text))) ∧
    (∀ (embedder : String → EmbedResp)
       (queryFn : List Int → Nat → List String × List Dict)
       (genFn : String → Except String String) (message : Option String)
       (e : ReqError),
      pyStrip (message.getD "") ≠ "" →
      retrieve_context embedder queryFn (pyStrip (message.getD "")) 4 =
        Except.error e →
      rag_endpoint embedder queryFn genFn message = Except.error e) := by
  refine ⟨?_, ?_, ?_⟩
  · intro embedder queryFn q k msg h
    simp [retrieve_context, h]
  · intro embedder queryFn q k status text emb h hne
    simp [retrieve_context, h, hne]
  · intro embedder queryFn genFn message e hq hret
    simp only [rag_endpoint]
    rw [if_neg hq]
    simp only [hret]

/-- C7 witness: an unreachable gateway and a 503 response both surface as
request failures, also end to end through the endpoint. -/
theorem retrieve_context_failure_propagates_witness :
    retrieve_context (fun _ => EmbedResp.raised "connection refused")
      (fun _ _ => ([], [])) "demam" 4 =
      Except.error (ReqError.raised "connection refused") ∧
    retrieve_context (fun _ => EmbedResp.response 503 "overloaded" [])
      (fun _ _ => ([], [])) "demam" 4 =
      Except.error (ReqError.httpException 500 ("Error from Ollama: " ++ "overloaded")) ∧
    rag_endpoint (fun _ => EmbedResp.raised "connection refused")
      (fun _ _ => ([], [])) (fun _ => Except.ok "ok") (some "demam") =
      Except.error (ReqError.raised "connection refused") := by
  refine ⟨?_, ?_, ?_⟩
  · exact retrieve_context_failure_propagates.1 _ _ "demam" 4 _ rfl
  · exact retrieve_context_failure_propagates.2.1 _ _ "demam" 4 503 "overloaded" []
      rfl (by decide)
  · exact retrieve_context_failure_propagates.2.2 _ _ _ (some "demam") _ (by decide)
      (retrieve_context_failure_propagates.1 _ _ _ 4 _ rfl)

/-- C8: an empty index is not an error: with empty retrieved documents and
metadata, `build_rag_prompt` still assembles the prompt from the fixed
directive and the user question (the context section is empty) and returns
`sources = []`; end to end, a query against an empty result set returns the
model's answer with an empty sources list. -/
theorem build_rag_prompt_empty_index :
    (∀ q : String, build_rag_prompt q [] [] =
      some (BAYMAX_SYSTEM_PROMPT ++ "\n\n" ++ "[KONTEKS]\n" ++ "" ++ "\n\n" ++
        "[PERTANYAAN PENGGUNA]\n" ++ q ++ "\n\n" ++ "[PETUNJUK]\n" ++ RAG_INSTRUCTIONS,
        [])) ∧
    (∀ (embedder : String → EmbedResp)
       (queryFn : List Int → Nat → List String × List Dict)
       (genFn : String → Except String String) (message : Option String)
       (answer : String),
      pyStrip (message.getD "") ≠ "" →
      retrieve_context embedder queryFn (pyStrip (message.getD "")) 4 =
        Except.ok ([], []) →
      genFn (BAYMAX_SYSTEM_PROMPT ++ "\n\n" ++ "[KONTEKS]\n" ++ "" ++ "\n\n" ++
        "[PERTANYAAN PENGGUNA]\n" ++ pyStrip (message.getD "") ++ "\n\n" ++
        "[PETUNJUK]\n" ++ RAG_INSTRUCTIONS) = Except.ok answer →
      rag_endpoint embedder queryFn genFn message = Except.ok (answer, [])) := by
  have hprompt : ∀ q : String, build_rag_prompt q [] [] =
      some (BAYMAX_SYSTEM_PROMPT ++ "\n\n" ++ "[KONTEKS]\n" ++ "" ++ "\n\n" ++
        "[PERTANYAAN PENGGUNA]\n" ++ q ++ "\n\n" ++ "[PETUNJUK]\n" ++ RAG_INSTRUCTIONS,
        []) := fun q => rfl
  refine ⟨hprompt, ?_⟩
  intro embedder queryFn genFn message answer hq hret hgen
  simp only [rag_endpoint]
  rw [if_neg hq]
  simp only [hret, hprompt (pyStrip (message.getD "")), hgen]

/-- C8 witness: a concrete query against an empty result set. -/
theorem build_rag_prompt_empty_index_witness :
    rag_endpoint (fun _ => EmbedResp.response 200 "ok" [3]) (fun _ _ => ([], []))
      (fun _ => Except.ok "Baiklah, saya bantu.") (some "Apa itu demam?") =
      Except.ok ("Baiklah, saya bantu.", []) :=
  build_rag_prompt_empty_index.2 (fun _ => EmbedResp.response 200 "ok" [3])
    (fun _ _ => ([], [])) (fun _ => Except.ok "Baiklah, saya bantu.")
    (some "Apa itu demam?") "Baiklah, saya bantu." (by decide) rfl rfl

/-- C10: a request to either endpoint whose message is absent, empty, or
whitespace-only fails with HTTP 400 "Message cannot be empty." regardless
of the behavior of the embedding, retrieval and generation collaborators —
i.e. before any of them is called. -/
theorem endpoints_reject_empty_message
    (message : Option String)
    (genChat : String → String → Except String String)
    (embedder : String → EmbedResp)
    (queryFn : List Int → Nat → List String × List Dict)
    (genRag : String → Except String String)
    (h : pyStrip (message.getD "") = "") :
    chat_endpoint genChat message =
      Except.error (ReqError.httpException 400 "Message cannot be empty.") ∧
    rag_endpoint embedder queryFn genRag message =
      Except.error (ReqError.httpException 400 "Message cannot be empty.") := by
  constructor
  · simp only [chat_endpoint]
    rw [if_pos h]
  · simp only [rag_endpoint]
    rw [if_pos h]

/-- C10 witness: a whitespace-only message and an absent message both get
the 400, even with a broken embedding gateway behind the endpoint. -/
theorem endpoints_reject_empty_message_witness :
    chat_endpoint (fun _ _ => Except.ok "x") (some " \n\t ") =
      Except.error (ReqError.httpException 400 "Message cannot be empty.") ∧
    rag_endpoint (fun _ => EmbedResp.raised "down") (fun _ _ => ([], []))
      (fun _ => Except.ok "x") Option.none =
      Except.error (ReqError.httpException 400 "Message cannot be empty.") := by
  constructor
  · exact (endpoints_reject_empty_message (some " \n\t ") (fun _ _ => Except.ok "x")
      (fun _ => EmbedResp.raised "down") (fun _ _ => ([], []))
      (fun _ => Except.ok "x") (by decide)).1
  · exact (endpoints_reject_empty_message Option.none (fun _ _ => Except.ok "x")
      (fun _ => EmbedResp.raised "down") (fun _ _ => ([], []))
      (fun _ => Except.ok "x") rfl).2
